import Mathlib

/-!
Verification of the comment search and relevance-ranking engine of
YouTubeCommentMiner (src/comment_search/comment_search.py).

Strings are modelled as `List Char`; Python `str.lower()` as a character-wise
`Char.toLower` map (the corpus texts are ASCII); Python's `in` substring test,
`str.count` (non-overlapping greedy count) and `str.find` loops are embedded
directly.  The external `re` module is modelled by an abstract engine value:
`none` models a pattern that raises `re.error` on compilation, `some ms`
models a successful compilation whose non-overlapping matches over the text
are the list `ms`.
-/

namespace CommentMiner

/-- Convert a Lean string literal to the `List Char` representation. -/
def lc (s : String) : List Char := s.data

/-- Python `str.lower()` (character-wise, ASCII). -/
def lowerStr (s : List Char) : List Char := s.map Char.toLower

/-- Python's substring test `needle in hay`. -/
def isSubstring : List Char → List Char → Bool
  | n, [] => n.isEmpty
  | n, c :: t => n.isPrefixOf (c :: t) || isSubstring n t

/-- `" ".join(keywords)`. -/
def joinSpace (keywords : List (List Char)) : List Char :=
  List.intercalate [' '] keywords

/-- All positions at which `needle` occurs in `hay`, overlapping allowed —
the positions visited by the Python loop `pos = text.find(needle, start);
start = pos + 1` in `get_plain_matches`. -/
def positionsOverlap (needle hay : List Char) : List Nat :=
  (List.range (hay.length + 1)).filter (fun i => needle.isPrefixOf (hay.drop i))

/-- The overlapping-occurrence slices `text[pos:pos+len(needle)]` collected by
the case-sensitive branch of `get_plain_matches`. -/
def findAllOverlap (needle hay : List Char) : List (List Char) :=
  (positionsOverlap needle hay).map (fun i => (hay.drop i).take needle.length)

/-- Start positions of the non-overlapping greedy (leftmost) occurrences of
`needle` in `hay`, as found by Python's `str.count` and `re.finditer` on a
literal pattern; `i` is the index of the head of the remaining list and
`skip` counts positions still covered by the previous match. -/
def scanNonOverlap (needle : List Char) : List Char → Nat → Nat → List Nat
  | [], i, _ => if needle.isEmpty then [i] else []
  | c :: t, i, skip =>
    if skip ≠ 0 then scanNonOverlap needle t (i + 1) (skip - 1)
    else if needle.isPrefixOf (c :: t) then
      i :: scanNonOverlap needle t (i + 1) (needle.length - 1)
    else scanNonOverlap needle t (i + 1) 0

/-- The non-overlapping occurrence start positions of `needle` in `hay`. -/
def posNonOverlap (needle hay : List Char) : List Nat :=
  scanNonOverlap needle hay 0 0

/-- Python `text.count(keyword)`: the number of non-overlapping (greedy
leftmost) occurrences; `"abc".count("")` is 4. -/
def countOcc (needle hay : List Char) : Nat :=
  (posNonOverlap needle hay).length

/-- `re.finditer` of a literal (escaped) pattern over `text`: the
non-overlapping occurrence slices of the original text, compared after
case-folding both sides when `ignoreCase`. -/
def finditerLit (needle hay : List Char) (ignoreCase : Bool) : List (List Char) :=
  let nf := if ignoreCase then lowerStr needle else needle
  let hf := if ignoreCase then lowerStr hay else hay
  (posNonOverlap nf hf).map (fun i => (hay.drop i).take needle.length)

/-- Model of the external `re` module: given (pattern, text, ignoreCase),
`none` models `re.error` on compilation, `some ms` models success with
non-overlapping match slices `ms` over the text. -/
def ReEngine : Type := List Char → List Char → Bool → Option (List (List Char))

/-- A concrete engine for literal patterns (no regex metacharacters):
compilation always succeeds and the matches are the literal occurrences. -/
def literalRe : ReEngine := fun pattern text ignoreCase =>
  some (finditerLit pattern text ignoreCase)

/-- An engine on which every pattern fails to compile (`re.error`). -/
def errorRe : ReEngine := fun _ _ _ => none

/-- `search_simple`: any keyword is a substring of text, lower-casing both
when not case-sensitive (comment_search.py lines 67-73). -/
def search_simple (text : List Char) (keywords : List (List Char))
    (case_sensitive : Bool) : Bool :=
  let t := if case_sensitive then text else lowerStr text
  let ks := if case_sensitive then keywords else keywords.map lowerStr
  ks.any (fun k => isSubstring k t)

/-- `search_all_keywords`: every keyword is a substring of text
(comment_search.py lines 75-81). -/
def search_all_keywords (text : List Char) (keywords : List (List Char))
    (case_sensitive : Bool) : Bool :=
  let t := if case_sensitive then text else lowerStr text
  let ks := if case_sensitive then keywords else keywords.map lowerStr
  ks.all (fun k => isSubstring k t)

/-- `search_phrase`: the phrase is a substring of text
(comment_search.py lines 83-89). -/
def search_phrase (text phrase : List Char) (case_sensitive : Bool) : Bool :=
  let t := if case_sensitive then text else lowerStr text
  let p := if case_sensitive then phrase else lowerStr phrase
  isSubstring p t

/-- `search_regex`: `bool(re.search(pattern, text, re.IGNORECASE))` inside a
`try`, returning `False` on `re.error` (comment_search.py lines 91-97).
Note the source always passes `re.IGNORECASE`: the flag argument to the
engine is always `true`. -/
def search_regex (eng : ReEngine) (text pattern : List Char) : Bool :=
  match eng pattern text true with
  | some ms => !ms.isEmpty
  | none => false

/-- A comment record, with the absent-field defaults of the data model
already applied (`text` "" , `author` "Unknown", `author_id` "N/A",
`like_count` 0, flags false, `timestamp` 0, `_time_text` "Unknown"). -/
structure Comment where
  text : List Char
  author : List Char
  author_id : List Char
  like_count : Nat
  author_is_uploader : Bool
  author_is_verified : Bool
  timestamp : Nat
  time_text : List Char
deriving DecidableEq, Repr

/-- The search-result wrapper built per matching record. -/
structure SearchResult where
  comment : Comment
  source_file : List Char
  video_id : List Char
  relevance_score : Nat
  matched_text : List (List Char)
deriving DecidableEq, Repr

/-- `extract_video_id_from_filename` (comment_search.py lines 60-64). -/
def extract_video_id_from_filename (filename : List Char) : List Char :=
  if (lc ".info.json").isSuffixOf filename then
    filename.take (filename.length - (lc ".info.json").length)
  else lc "unknown"

/-- `get_plain_matches` (comment_search.py lines 140-179): the literal
matched text portions, deduplicated.  Python returns `list(set(matches))`
in unspecified order; the set is modelled as first-occurrence `dedup`. -/
def get_plain_matches (eng : ReEngine) (text : List Char)
    (keywords : List (List Char)) (search_mode : String)
    (case_sensitive : Bool) : List (List Char) :=
  let found :=
    if search_mode = "regex" then
      match eng (keywords.headD []) text (!case_sensitive) with
      | some ms => ms
      | none => []
    else if search_mode = "phrase" then
      let phrase := joinSpace keywords
      if !case_sensitive then finditerLit phrase text true
      else findAllOverlap phrase text
    else
      keywords.foldl (fun acc k =>
        if !case_sensitive then acc ++ finditerLit k text true
        else acc ++ findAllOverlap k text) []
  found.dedup

/-- `calculate_relevance_score` (comment_search.py lines 181-211). -/
def calculate_relevance_score (comment : Comment)
    (keywords : List (List Char)) (case_sensitive : Bool) : Nat :=
  let text := comment.text
  let text_lower := if case_sensitive then text else lowerStr text
  let keywords_lower := if case_sensitive then keywords else keywords.map lowerStr
  let score0 := keywords_lower.foldl (fun s k => s + countOcc k text_lower * 10) 0
  let score1 :=
    if keywords_lower.any (fun kw => isSubstring kw (text_lower.take 50))
    then score0 + 5 else score0
  let score2 := score1 + min comment.like_count 50
  let score3 := if comment.author_is_uploader then score2 + 20 else score2
  if comment.author_is_verified then score3 + 10 else score3

/-- Stable insertion of `x` into an already-sorted (descending by `key`)
list: `x` goes before the first element whose key is ≤ its own, so an
element inserted earlier in the original order stays before later
equal-key elements. -/
def insertByDesc (key : α → Nat) (x : α) : List α → List α
  | [] => [x]
  | y :: ys => if key y ≤ key x then x :: y :: ys else y :: insertByDesc key x ys

/-- Stable descending sort by `key`: the behaviour of Python's
`list.sort(key=key, reverse=True)` (Timsort is documented stable, and a
stable sort's output is unique, so any stable descending sort embeds it). -/
def sortByDesc (key : α → Nat) : List α → List α
  | [] => []
  | x :: xs => insertByDesc key x (sortByDesc key xs)

/-- The mode dispatch of the per-comment matching in `search_comments`
(comment_search.py lines 553-561): `match` starts `False` and stays `False`
on an unknown mode. -/
def matchComment (eng : ReEngine) (text : List Char)
    (keywords : List (List Char)) (search_mode : String)
    (case_sensitive : Bool) : Bool :=
  if search_mode = "any" then search_simple text keywords case_sensitive
  else if search_mode = "all" then search_all_keywords text keywords case_sensitive
  else if search_mode = "phrase" then
    search_phrase text (joinSpace keywords) case_sensitive
  else if search_mode = "regex" then search_regex eng text (keywords.headD [])
  else false

/-- The sorting step of `search_comments` (comment_search.py lines 579-584). -/
def sortStep (sort_by : String) (results : List SearchResult) : List SearchResult :=
  if sort_by = "relevance" then sortByDesc (fun r => r.relevance_score) results
  else if sort_by = "likes" then sortByDesc (fun r => r.comment.like_count) results
  else if sort_by = "date" then sortByDesc (fun r => r.comment.timestamp) results
  else results

/-- The truncation step `if max_results: results = results[:max_results]`
(comment_search.py lines 586-587): Python truthiness makes both `None` and
`0` skip the truncation. -/
def truncStep (max_results : Option Nat) (results : List SearchResult) :
    List SearchResult :=
  match max_results with
  | none => results
  | some n => if n = 0 then results else results.take n

/-- One corpus file: (filename, comment records), as produced by
`load_comments_from_file`. -/
abbrev Corpus : Type := List (List Char × List Comment)

/-- `search_comments` (comment_search.py lines 508-589): per file, per
comment: skip empty text, skip below `min_likes`, test the mode, build the
result wrapper; then sort and truncate. -/
def search_comments (eng : ReEngine) (corpus : Corpus)
    (keywords : List (List Char)) (search_mode : String)
    (case_sensitive : Bool) (min_likes : Nat) (max_results : Option Nat)
    (sort_by : String) : List SearchResult :=
  let results := corpus.foldl (fun acc fc =>
    let filename := fc.1
    let video_id := extract_video_id_from_filename filename
    acc ++ fc.2.filterMap (fun c =>
      if c.text.isEmpty then none
      else if c.like_count < min_likes then none
      else if matchComment eng c.text keywords search_mode case_sensitive then
        some { comment := c
               source_file := filename
               video_id := video_id
               relevance_score :=
                 calculate_relevance_score c keywords case_sensitive
               matched_text :=
                 get_plain_matches eng c.text keywords search_mode case_sensitive }
      else none)) []
  truncStep max_results (sortStep sort_by results)

/-- One entry of a user's `comments` list in the author rollup
(comment_search.py lines 261-269). -/
structure StoredComment where
  text : List Char
  video_id : List Char
  source_file : List Char
  like_count : Nat
  timestamp : Nat
  time_text : List Char
  full_comment : Comment
deriving DecidableEq, Repr

/-- The per-author aggregate of `get_all_users`
(comment_search.py lines 230-237); `author_id` starts `None`. -/
structure UserStats where
  count : Nat
  total_likes : Nat
  comments : List StoredComment
  author_id : Option (List Char)
  is_verified : Bool
  is_uploader : Bool
deriving DecidableEq, Repr

/-- The defaultdict default value (comment_search.py lines 230-237). -/
def defaultStats : UserStats :=
  { count := 0, total_likes := 0, comments := [], author_id := none,
    is_verified := false, is_uploader := false }

/-- The author-keyed map, in dict insertion order. -/
abbrev UserMap : Type := List (List Char × UserStats)

/-- defaultdict access-and-update: update the author's entry in place if
present, else append a fresh default entry (dict insertion order). -/
def updateUser (m : UserMap) (a : List Char) (f : UserStats → UserStats) :
    UserMap :=
  match m with
  | [] => [(a, f defaultStats)]
  | (b, s) :: rest =>
    if b = a then (b, f s) :: rest else (b, s) :: updateUser rest a f

/-- Python `username in user_stats` / `user_stats[username]`. -/
def lookupUser (m : UserMap) (a : List Char) : Option UserStats :=
  match m with
  | [] => none
  | (b, s) :: rest => if b = a then some s else lookupUser rest a

/-- The per-comment update step of `get_all_users`
(comment_search.py lines 247-269). -/
def processComment (video_id filename : List Char) (m : UserMap)
    (c : Comment) : UserMap :=
  updateUser m c.author (fun s =>
    { count := s.count + 1
      total_likes := s.total_likes + c.like_count
      author_id := some c.author_id
      is_verified := s.is_verified || c.author_is_verified
      is_uploader := s.is_uploader || c.author_is_uploader
      comments := s.comments ++
        [{ text := c.text, video_id := video_id, source_file := filename,
           like_count := c.like_count, timestamp := c.timestamp,
           time_text := c.time_text, full_comment := c }] })

/-- `get_all_users` (comment_search.py lines 213-274), with the corpus
given as loaded (filename, comments) pairs. -/
def get_all_users (corpus : Corpus) : UserMap :=
  corpus.foldl (fun m fc =>
    let video_id := extract_video_id_from_filename fc.1
    fc.2.foldl (processComment video_id fc.1) m) []

/-- `extract_user_comments` (comment_search.py lines 404-506), returning the
result list together with the suggestion list printed for an unknown user
(empty for a known user).  `search_keywords` follows Python truthiness:
`none` and `some []` both take the no-keyword path. -/
def extract_user_comments (eng : ReEngine) (corpus : Corpus)
    (username : List Char) (search_keywords : Option (List (List Char)))
    (search_mode : String) (case_sensitive : Bool) (min_likes : Nat) :
    List SearchResult × List (List Char) :=
  let user_stats := get_all_users corpus
  match lookupUser user_stats username with
  | none =>
    let similar := (user_stats.map Prod.fst).filter
      (fun u => isSubstring (lowerStr username) (lowerStr u))
    ([], similar.take 5)
  | some stats =>
    let all_comments := stats.comments
    match search_keywords with
    | some (k :: ks) =>
      let kws := k :: ks
      let filtered := all_comments.filter (fun cd =>
        if cd.like_count < min_likes then false
        else matchComment eng cd.text kws search_mode case_sensitive)
      let results := filtered.map (fun cd =>
        { comment := cd.full_comment
          source_file := cd.source_file
          video_id := cd.video_id
          relevance_score :=
            calculate_relevance_score cd.full_comment kws case_sensitive
          matched_text :=
            get_plain_matches eng cd.text kws search_mode case_sensitive })
      (sortByDesc (fun r => r.relevance_score) results, [])
    | _ =>
      let kept :=
        if 0 < min_likes
        then all_comments.filter (fun c => min_likes ≤ c.like_count)
        else all_comments
      let results := kept.map (fun cd =>
        { comment := cd.full_comment
          source_file := cd.source_file
          video_id := cd.video_id
          relevance_score := 0
          matched_text := [] })
      (sortByDesc (fun r => r.comment.like_count) results, [])

/-- The empty string is a substring of every text (Python `"" in t`). -/
theorem isSubstring_nil (h : List Char) : isSubstring [] h = true := by
  cases h with
  | nil => rfl
  | cons c t => simp [isSubstring]

/-- A nonempty `all` implies `any` for the same predicate. -/
theorem all_imp_any {α} (p : α → Bool) :
    ∀ l : List α, l ≠ [] → l.all p = true → l.any p = true
  | [], h, _ => absurd rfl h
  | x :: _, _, hall => by
    simp only [List.all_cons, Bool.and_eq_true] at hall
    simp [List.any_cons, hall.1]

/-- The empty results list is fixed by the sorting step. -/
theorem sortStep_nil (sort_by : String) : sortStep sort_by [] = [] := by
  simp [sortStep, sortByDesc]

/-- The empty results list is fixed by the truncation step. -/
theorem truncStep_nil (max_results : Option Nat) : truncStep max_results [] = [] := by
  cases max_results with
  | none => rfl
  | some n => simp [truncStep]

/-- C2, counterexample: with the empty keyword list Python's `all(...)` is
vacuously true while `any(...)` is false, so mode "all" reports a match that
mode "any" does not. -/
theorem c2_empty_keywords_counterexample :
    search_all_keywords (lc "a") [] false = true ∧
    search_simple (lc "a") [] false = false := by
  constructor <;> rfl

/-- C2 (amended): for every NONEMPTY keyword list, a match under mode "all"
(`search_all_keywords`) implies a match under mode "any" (`search_simple`),
for the same text and case flag. -/
theorem c2_all_implies_any (text : List Char) (keywords : List (List Char))
    (cs : Bool) (hne : keywords ≠ [])
    (hall : search_all_keywords text keywords cs = true) :
    search_simple text keywords cs = true := by
  unfold search_simple
  unfold search_all_keywords at hall
  apply all_imp_any _ _ _ hall
  cases cs <;> simp [hne]

/-- C2, witness: a concrete nonempty keyword list on which the amended
implication fires. -/
theorem c2_witness : search_simple (lc "ab") [lc "a"] false = true :=
  c2_all_implies_any (lc "ab") [lc "a"] false (by simp) (by rfl)

/-- C3, counterexample: with zero keywords, mode "all" matches (Python
`all([])` is `True`) and the empty phrase matches (Python `"" in t` is
`True`), contradicting the claim that both are false. -/
theorem c3_empty_counterexample :
    search_all_keywords (lc "b") [] false = true ∧
    search_phrase (lc "b") (joinSpace []) false = true := by
  constructor <;> rfl

/-- C3 (amended): for every text and case flag, an empty keyword list gives
no match in mode "any" (`search_simple`), but DOES match in mode "all"
(vacuous `all([])`) and in phrase mode (the empty joined phrase is a
substring of every text). -/
theorem c3_empty_keywords (text : List Char) (cs : Bool) :
    search_simple text [] cs = false ∧
    search_all_keywords text [] cs = true ∧
    search_phrase text (joinSpace []) cs = true := by
  refine ⟨?_, ?_, ?_⟩
  · cases cs <;> rfl
  · cases cs <;> rfl
  · have h0 : joinSpace [] = ([] : List Char) := rfl
    cases cs <;> simp [search_phrase, h0, lowerStr, isSubstring_nil]

/-- C4: if the pattern fails to compile (`re.error`), `search_regex` reports
no match and returns `false` — the exception never escapes the boundary —
and a whole regex-mode batch over any corpus degrades to the empty result
list rather than aborting. -/
theorem c4_invalid_regex_no_match :
    (∀ (eng : ReEngine) (text pattern : List Char),
      eng pattern text true = none → search_regex eng text pattern = false) ∧
    (∀ (eng : ReEngine) (corpus : Corpus) (keywords : List (List Char))
       (cs : Bool) (ml : Nat) (mr : Option Nat) (sb : String),
      (∀ p t, eng p t true = none) →
      search_comments eng corpus keywords "regex" cs ml mr sb = []) := by
  constructor
  · intro eng text pattern h
    simp [search_regex, h]
  · intro eng corpus keywords cs ml mr sb herr
    have hmatch : ∀ t : List Char,
        matchComment eng t keywords "regex" cs = false := by
      intro t
      simp [matchComment, search_regex, herr]
    have hres : ∀ acc : List SearchResult, corpus.foldl (fun acc fc =>
        acc ++ fc.2.filterMap (fun c =>
          if c.text.isEmpty then none
          else if c.like_count < ml then none
          else if matchComment eng c.text keywords "regex" cs then
            some { comment := c
                   source_file := fc.1
                   video_id := extract_video_id_from_filename fc.1
                   relevance_score := calculate_relevance_score c keywords cs
                   matched_text :=
                     get_plain_matches eng c.text keywords "regex" cs }
          else none)) acc = acc := by
      intro acc
      induction corpus generalizing acc with
      | nil => rfl
      | cons fc rest ih =>
        have hnil : fc.2.filterMap (fun c =>
            if c.text.isEmpty then none
            else if c.like_count < ml then none
            else if matchComment eng c.text keywords "regex" cs then
              some ({ comment := c
                      source_file := fc.1
                      video_id := extract_video_id_from_filename fc.1
                      relevance_score := calculate_relevance_score c keywords cs
                      matched_text :=
                        get_plain_matches eng c.text keywords "regex" cs } :
                     SearchResult)
            else none) = [] := by
          apply List.filterMap_eq_nil_iff.mpr
          intro c _
          simp [hmatch c.text]
        simp only [List.foldl_cons, hnil, List.append_nil]
        exact ih acc
    simp only [search_comments]
    rw [hres, sortStep_nil, truncStep_nil]

/-- C4, witness: a concrete engine on which every pattern raises `re.error`,
applied to a concrete text, pattern and one-file corpus. -/
theorem c4_witness :
    search_regex errorRe (lc "hello") (lc "(") = false ∧
    search_comments errorRe [(lc "v.info.json",
      [({ text := lc "hello", author := lc "A", author_id := lc "a",
          like_count := 0, author_is_uploader := false,
          author_is_verified := false, timestamp := 0,
          time_text := lc "t" } : Comment)])] [lc "("] "regex" false 0 none
      "relevance" = [] :=
  ⟨c4_invalid_regex_no_match.1 errorRe (lc "hello") (lc "(") rfl,
   c4_invalid_regex_no_match.2 errorRe _ _ false 0 none "relevance"
     (fun _ _ => rfl)⟩

/-- C5: code bug at the failing input (text "ABC", pattern "abc",
case_sensitive = true): the match decision `search_regex` always passes
`re.IGNORECASE` (it does not even take the flag), so it reports a match for
a pattern differing only in case, while `get_plain_matches` in regex mode
honours `case_sensitive = true` and extracts no span — the decision and the
span extraction disagree on case semantics. -/
theorem c5_regex_case_divergence :
    search_regex literalRe (lc "ABC") (lc "abc") = true ∧
    get_plain_matches literalRe (lc "ABC") [lc "abc"] "regex" true = [] := by
  constructor <;> rfl

/-- Accumulating `score += count * 10` over a list equals ten times the sum
of the counts. -/
theorem foldl_add_mul {α} (g : α → Nat) :
    ∀ (l : List α) (a : Nat),
      l.foldl (fun s k => s + g k * 10) a = a + 10 * (l.map g).sum
  | [], a => by simp
  | x :: xs, a => by
    simp only [List.foldl_cons, List.map_cons, List.sum_cons]
    rw [foldl_add_mul g xs]
    ring

/-- C1: `calculate_relevance_score` equals exactly 10 per non-overlapping
keyword occurrence (case-folded unless case-sensitive), plus 5 if any
keyword occurs in the first 50 characters, plus `min(like_count, 50)`, plus
20 for the uploader flag and 10 for the verified flag; on the record
"I love this deep web documentary" with 5 likes and keywords ["deep web"],
case-insensitive, the score is 20. -/
theorem c1_relevance_score_formula :
    (∀ (c : Comment) (K : List (List Char)) (cs : Bool),
      calculate_relevance_score c K cs =
        10 * (K.map (fun k =>
            countOcc (if cs then k else lowerStr k)
                     (if cs then c.text else lowerStr c.text))).sum
        + (if K.any (fun k =>
              isSubstring (if cs then k else lowerStr k)
                ((if cs then c.text else lowerStr c.text).take 50))
           then 5 else 0)
        + min c.like_count 50
        + (if c.author_is_uploader then 20 else 0)
        + (if c.author_is_verified then 10 else 0)) ∧
    calculate_relevance_score
      { text := lc "I love this deep web documentary", author := lc "Alice",
        author_id := lc "a1", like_count := 5, author_is_uploader := false,
        author_is_verified := false, timestamp := 0, time_text := lc "Unknown" }
      [lc "deep web"] false = 20 := by
  constructor
  · intro c K cs
    cases cs
    · simp only [calculate_relevance_score, if_true, if_false, Bool.false_eq_true,
        ite_false, ite_true]
      rw [foldl_add_mul]
      simp only [List.map_map, Function.comp_def, List.any_map]
      split_ifs <;> omega
    · simp only [calculate_relevance_score, if_true, if_false, Bool.false_eq_true,
        ite_false, ite_true]
      rw [foldl_add_mul]
      split_ifs <;> omega
  · decide

/-- C10: a `max_results` of 0 is falsy in Python, so the truncation step is
skipped exactly as when no cap is given: `search_comments` returns every
matching record in both cases. -/
theorem c10_zero_cap_means_no_cap :
    (∀ results : List SearchResult, truncStep (some 0) results = results) ∧
    (∀ (eng : ReEngine) (corpus : Corpus) (keywords : List (List Char))
       (mode : String) (cs : Bool) (ml : Nat) (sb : String),
      search_comments eng corpus keywords mode cs ml (some 0) sb =
      search_comments eng corpus keywords mode cs ml none sb) := by
  constructor
  · intro results
    rfl
  · intro eng corpus keywords mode cs ml sb
    simp only [search_comments, truncStep]
    simp

/-- Membership in a stable descending insertion. -/
theorem mem_insertByDesc {α} (key : α → Nat) (x : α) :
    ∀ (l : List α) (z : α), z ∈ insertByDesc key x l ↔ z = x ∨ z ∈ l
  | [], z => by simp [insertByDesc]
  | y :: ys, z => by
    simp only [insertByDesc]
    split
    · simp
    · simp only [List.mem_cons, mem_insertByDesc key x ys z]
      tauto

/-- Stable descending insertion preserves descending order. -/
theorem pairwise_insertByDesc {α} (key : α → Nat) (x : α) :
    ∀ l : List α, List.Pairwise (fun a b => key b ≤ key a) l →
      List.Pairwise (fun a b => key b ≤ key a) (insertByDesc key x l)
  | [], _ => by simp [insertByDesc]
  | y :: ys, h => by
    simp only [insertByDesc]
    rcases List.pairwise_cons.mp h with ⟨hy, hys⟩
    split
    · rename_i hle
      refine List.pairwise_cons.mpr ⟨?_, h⟩
      intro z hz
      rcases List.mem_cons.mp hz with rfl | hz
      · exact hle
      · exact le_trans (hy z hz) hle
    · rename_i hgt
      refine List.pairwise_cons.mpr ⟨?_, pairwise_insertByDesc key x ys hys⟩
      intro z hz
      rcases (mem_insertByDesc key x ys z).mp hz with rfl | hz
      · omega
      · exact hy z hz

/-- The stable descending sort produces a non-increasing key sequence. -/
theorem pairwise_sortByDesc {α} (key : α → Nat) :
    ∀ l : List α, List.Pairwise (fun a b => key b ≤ key a) (sortByDesc key l)
  | [] => by simp [sortByDesc]
  | x :: xs => pairwise_insertByDesc key x _ (pairwise_sortByDesc key xs)

/-- Stability of the insertion at one key value: the inserted element passes
only strictly greater keys, so the equal-key subsequence gains `x` at its
front and is otherwise untouched. -/
theorem filter_insertByDesc {α} (key : α → Nat) (x : α) (c : Nat) :
    ∀ l : List α,
      (insertByDesc key x l).filter (fun z => key z == c) =
      if key x == c then x :: l.filter (fun z => key z == c)
      else l.filter (fun z => key z == c)
  | [] => by
    simp only [insertByDesc, List.filter]
    split <;> simp_all
  | y :: ys => by
    simp only [insertByDesc]
    split
    · rename_i hle
      by_cases hx : key x == c <;> simp [List.filter, hx]
    · rename_i hgt
      have ih := filter_insertByDesc key x c ys
      by_cases hx : key x == c <;> by_cases hy : key y == c <;>
        simp_all [List.filter_cons]

/-- Stability of the sort: for every key value, the subsequence of elements
with that key is exactly the one of the input, in the input's order. -/
theorem filter_sortByDesc {α} (key : α → Nat) (c : Nat) :
    ∀ l : List α,
      (sortByDesc key l).filter (fun z => key z == c) =
      l.filter (fun z => key z == c)
  | [] => rfl
  | x :: xs => by
    simp only [sortByDesc, filter_insertByDesc, filter_sortByDesc key c xs,
      List.filter_cons]

/-- C7: sorting by "likes" yields non-increasing `like_count`, by
"relevance" non-increasing `relevance_score`, by "date" non-increasing
`timestamp` (so zero timestamps sort last: once a zero timestamp appears,
every later one is zero); in every case, results with equal sort-key values
keep their original relative order. -/
theorem c7_sorting : ∀ (l : List SearchResult),
    (List.Pairwise (fun a b => b.comment.like_count ≤ a.comment.like_count)
        (sortStep "likes" l) ∧
      ∀ c : Nat, (sortStep "likes" l).filter (fun r => r.comment.like_count == c) =
        l.filter (fun r => r.comment.like_count == c)) ∧
    (List.Pairwise (fun a b => b.relevance_score ≤ a.relevance_score)
        (sortStep "relevance" l) ∧
      ∀ c : Nat, (sortStep "relevance" l).filter (fun r => r.relevance_score == c) =
        l.filter (fun r => r.relevance_score == c)) ∧
    (List.Pairwise (fun a b => b.comment.timestamp ≤ a.comment.timestamp)
        (sortStep "date" l) ∧
      (∀ c : Nat, (sortStep "date" l).filter (fun r => r.comment.timestamp == c) =
        l.filter (fun r => r.comment.timestamp == c)) ∧
      List.Pairwise (fun a b => a.comment.timestamp = 0 → b.comment.timestamp = 0)
        (sortStep "date" l)) := by
  intro l
  have hlikes : sortStep "likes" l = sortByDesc (fun r => r.comment.like_count) l := by
    simp [sortStep]
  have hrel : sortStep "relevance" l = sortByDesc (fun r => r.relevance_score) l := by
    simp [sortStep]
  have hdate : sortStep "date" l = sortByDesc (fun r => r.comment.timestamp) l := by
    simp [sortStep]
  refine ⟨⟨?_, ?_⟩, ⟨?_, ?_⟩, ?_, ?_, ?_⟩
  · rw [hlikes]; exact pairwise_sortByDesc _ l
  · intro c; rw [hlikes]; exact filter_sortByDesc _ c l
  · rw [hrel]; exact pairwise_sortByDesc _ l
  · intro c; rw [hrel]; exact filter_sortByDesc _ c l
  · rw [hdate]; exact pairwise_sortByDesc _ l
  · intro c; rw [hdate]; exact filter_sortByDesc _ c l
  · rw [hdate]
    exact (pairwise_sortByDesc _ l).imp (by omega)

/-- A three-comment record maker for the C7 witness list. -/
def mkC7Res (name : String) (likes score ts : Nat) : SearchResult :=
  { comment :=
      { text := lc name, author := lc name, author_id := lc name,
        like_count := likes, author_is_uploader := false,
        author_is_verified := false, timestamp := ts, time_text := lc "t" }
    source_file := lc "f"
    video_id := lc "v"
    relevance_score := score
    matched_text := [] }

/-- A small result list with a like-count tie, for the C7 witness. -/
def c7ex : List SearchResult :=
  [mkC7Res "x" 3 1 9, mkC7Res "y" 7 2 0, mkC7Res "z" 3 3 4]

/-- C7, witness: the sorting property applied to a concrete result list
with a like-count tie, at key value 3. -/
theorem c7_witness :
    List.Pairwise (fun a b => b.comment.like_count ≤ a.comment.like_count)
      (sortStep "likes" c7ex) ∧
    (sortStep "likes" c7ex).filter (fun r => r.comment.like_count == 3) =
      c7ex.filter (fun r => r.comment.like_count == 3) :=
  ⟨(c7_sorting c7ex).1.1, (c7_sorting c7ex).1.2 3⟩

/-- Sorting does not add elements. -/
theorem mem_sortByDesc {α} (key : α → Nat) :
    ∀ (l : List α) (z : α), z ∈ sortByDesc key l → z ∈ l
  | [], z, h => by simp [sortByDesc] at h
  | x :: xs, z, h => by
    simp only [sortByDesc] at h
    rcases (mem_insertByDesc key x _ z).mp h with rfl | h
    · exact List.mem_cons_self _ _
    · exact List.mem_cons_of_mem _ (mem_sortByDesc key xs z h)

/-- The sorting step of `search_comments` does not add elements. -/
theorem mem_sortStep (sb : String) (l : List SearchResult) (r : SearchResult)
    (h : r ∈ sortStep sb l) : r ∈ l := by
  unfold sortStep at h
  split_ifs at h <;> first | exact mem_sortByDesc _ l r h | exact h

/-- The truncation step of `search_comments` does not add elements. -/
theorem mem_truncStep (mr : Option Nat) (l : List SearchResult)
    (r : SearchResult) (h : r ∈ truncStep mr l) : r ∈ l := by
  cases mr with
  | none => exact h
  | some n =>
    simp only [truncStep] at h
    split at h
    · exact h
    · exact List.mem_of_mem_take h

/-- Every record collected by the scan loop of `search_comments` passed the
empty-text and the `min_likes` guards, which run before the match test. -/
theorem c6_aux (eng : ReEngine) (keywords : List (List Char)) (mode : String)
    (cs : Bool) (ml : Nat) :
    ∀ (corpus : Corpus) (acc : List SearchResult),
      (∀ r ∈ acc, ml ≤ r.comment.like_count ∧ r.comment.text ≠ []) →
      ∀ r ∈ corpus.foldl (fun acc fc =>
        acc ++ fc.2.filterMap (fun c =>
          if c.text.isEmpty then none
          else if c.like_count < ml then none
          else if matchComment eng c.text keywords mode cs then
            some ({ comment := c
                    source_file := fc.1
                    video_id := extract_video_id_from_filename fc.1
                    relevance_score := calculate_relevance_score c keywords cs
                    matched_text :=
                      get_plain_matches eng c.text keywords mode cs } :
                   SearchResult)
          else none)) acc,
        ml ≤ r.comment.like_count ∧ r.comment.text ≠ []
  | [], acc, hacc, r, hr => hacc r hr
  | fc :: rest, acc, hacc, r, hr => by
    rw [List.foldl_cons] at hr
    refine c6_aux eng keywords mode cs ml rest _ ?_ r hr
    intro s hs
    rcases List.mem_append.mp hs with h | h
    · exact hacc s h
    · rcases List.mem_filterMap.mp h with ⟨c, _, hc⟩
      simp at hc
      obtain ⟨hne, hml, _, rfl⟩ := hc
      exact ⟨hml, hne⟩

/-- C6: no record in the result list of `search_comments` has a
`like_count` below `min_likes` or an empty text: both guards run per record
before the match test and the score computation. -/
theorem c6_filters (eng : ReEngine) (corpus : Corpus)
    (keywords : List (List Char)) (mode : String) (cs : Bool) (ml : Nat)
    (mr : Option Nat) (sb : String) (r : SearchResult)
    (hr : r ∈ search_comments eng corpus keywords mode cs ml mr sb) :
    ml ≤ r.comment.like_count ∧ r.comment.text ≠ [] := by
  simp only [search_comments] at hr
  exact c6_aux eng keywords mode cs ml corpus [] (by simp) r
    (mem_sortStep sb _ r (mem_truncStep mr _ r hr))

/-- A one-comment record for the C6 witness. -/
def c6comment : Comment :=
  { text := lc "deep web", author := lc "A", author_id := lc "a",
    like_count := 5, author_is_uploader := false,
    author_is_verified := false, timestamp := 0, time_text := lc "t" }

/-- A one-file corpus for the C6 witness. -/
def c6corpus : Corpus := [(lc "v.info.json", [c6comment])]

/-- The result record `search_comments` produces for `c6corpus` with
keyword "web", mode "any", `min_likes` 1. -/
def c6res : SearchResult :=
  { comment := c6comment, source_file := lc "v.info.json", video_id := lc "v",
    relevance_score := 20, matched_text := [lc "web"] }

/-- C6, witness: the guard property applied to the concrete result of a
concrete search with `min_likes` 1. -/
theorem c6_witness :
    1 ≤ c6res.comment.like_count ∧ c6res.comment.text ≠ [] :=
  c6_filters literalRe c6corpus [lc "web"] "any" false 1 none "relevance"
    c6res (by decide)

/-- C8: for an author name absent from the rollup keys, `extract_user_comments`
returns an empty result list (it does not raise) together with at most 5
suggestions, each an existing author name that contains the queried name as
a case-insensitive substring (the query is the substring). -/
theorem c8_unknown_author (eng : ReEngine) (corpus : Corpus)
    (username : List Char) (kws : Option (List (List Char))) (mode : String)
    (cs : Bool) (ml : Nat)
    (hunk : lookupUser (get_all_users corpus) username = none) :
    (extract_user_comments eng corpus username kws mode cs ml).1 = [] ∧
    (extract_user_comments eng corpus username kws mode cs ml).2.length ≤ 5 ∧
    ∀ s ∈ (extract_user_comments eng corpus username kws mode cs ml).2,
      (∃ st, (s, st) ∈ get_all_users corpus) ∧
      isSubstring (lowerStr username) (lowerStr s) = true := by
  simp only [extract_user_comments]
  rw [hunk]
  refine ⟨rfl, ?_, ?_⟩
  · exact List.length_take_le _ _
  · intro s hs
    have hs' := List.mem_of_mem_take hs
    rcases List.mem_filter.mp hs' with ⟨hmem, hsub⟩
    constructor
    · rcases List.mem_map.mp hmem with ⟨⟨a, st⟩, hin, rfl⟩
      exact ⟨st, hin⟩
    · exact hsub

/-- The C9 invariant on the author rollup: every author entry's count equals
the number of attached comment records, and its like total equals the sum
of their like counts. -/
def StatsInv (m : UserMap) : Prop :=
  ∀ p ∈ m, p.2.count = p.2.comments.length ∧
    p.2.total_likes = (p.2.comments.map (fun sc => sc.like_count)).sum

/-- The rollup invariant is preserved by each per-comment update step. -/
theorem c9_step (v fn : List Char) (c : Comment) :
    ∀ m : UserMap, StatsInv m → StatsInv (processComment v fn m c)
  | [], _ => by
    intro p hp
    simp only [processComment, updateUser, List.mem_singleton] at hp
    subst hp
    simp [defaultStats]
  | (b, s) :: rest, h => by
    intro p hp
    simp only [processComment, updateUser] at hp
    have hhead := h (b, s) (List.mem_cons_self _ _)
    have htail : StatsInv rest := fun q hq => h q (List.mem_cons_of_mem _ hq)
    split at hp
    · rcases List.mem_cons.mp hp with rfl | hp
      · refine ⟨?_, ?_⟩
        · have h1 : s.count = s.comments.length := hhead.1
          simp [h1]
        · have h2 : s.total_likes =
              (s.comments.map (fun sc => sc.like_count)).sum := hhead.2
          simp [h2]
      · exact htail p hp
    · rcases List.mem_cons.mp hp with rfl | hp
      · exact hhead
      · exact c9_step v fn c rest htail p hp

/-- The rollup invariant is preserved by one file's comment fold. -/
theorem c9_fold_comments (v fn : List Char) :
    ∀ (cl : List Comment) (m : UserMap), StatsInv m →
      StatsInv (cl.foldl (processComment v fn) m)
  | [], _, h => h
  | c :: rest, m, h => c9_fold_comments v fn rest _ (c9_step v fn c m h)

/-- C9: after the author rollup processes any corpus — and after every
single per-comment update step — each author's stored count equals the
length of the attached comment-record list, and the stored like total
equals the sum of the attached records' like counts. -/
theorem c9_rollup_invariant :
    (∀ (v fn : List Char) (m : UserMap) (c : Comment),
      StatsInv m → StatsInv (processComment v fn m c)) ∧
    ∀ corpus : Corpus, StatsInv (get_all_users corpus) := by
  constructor
  · exact fun v fn m c h => c9_step v fn c m h
  · intro corpus
    unfold get_all_users
    have hfold : ∀ (cor : Corpus) (m : UserMap), StatsInv m →
        StatsInv (cor.foldl (fun m fc =>
          fc.2.foldl
            (processComment (extract_video_id_from_filename fc.1) fc.1) m) m) := by
      intro cor
      induction cor with
      | nil => exact fun m h => h
      | cons fc rest ih =>
        intro m h
        exact ih _ (c9_fold_comments _ _ fc.2 m h)
    exact hfold corpus [] (by intro p hp; simp at hp)

/-- First comment by Bob (3 likes), for the C8/C9 witnesses. -/
def bob1 : Comment :=
  { text := lc "hello there", author := lc "Bob", author_id := lc "id1",
    like_count := 3, author_is_uploader := false, author_is_verified := false,
    timestamp := 1, time_text := lc "t" }

/-- Second comment by Bob (7 likes), for the C8/C9 witnesses. -/
def bob2 : Comment :=
  { text := lc "second one", author := lc "Bob", author_id := lc "id1",
    like_count := 7, author_is_uploader := false, author_is_verified := false,
    timestamp := 2, time_text := lc "t" }

/-- A one-file corpus holding Bob's two comments. -/
def bobCorpus : Corpus := [(lc "a.info.json", [bob1, bob2])]

/-- C8, witness: querying the unknown author "ob" over Bob's corpus yields
an empty result, and the suggestion "Bob" is an existing author containing
"ob" case-insensitively. -/
theorem c8_witness :
    (extract_user_comments literalRe bobCorpus (lc "ob") none "any" false 0).1
      = [] ∧
    (∃ st, (lc "Bob", st) ∈ get_all_users bobCorpus) ∧
    isSubstring (lowerStr (lc "ob")) (lowerStr (lc "Bob")) = true := by
  have h := c8_unknown_author literalRe bobCorpus (lc "ob") none "any" false 0
    (by decide)
  exact ⟨h.1, h.2.2 (lc "Bob") (by decide)⟩

/-- The rollup entry for Bob after processing `bobCorpus`: count 2,
total likes 10. -/
def bobPair : List Char × UserStats :=
  (lc "Bob",
   { count := 2
     total_likes := 10
     comments :=
       [{ text := lc "hello there", video_id := lc "a",
          source_file := lc "a.info.json", like_count := 3, timestamp := 1,
          time_text := lc "t", full_comment := bob1 },
        { text := lc "second one", video_id := lc "a",
          source_file := lc "a.info.json", like_count := 7, timestamp := 2,
          time_text := lc "t", full_comment := bob2 }]
     author_id := some (lc "id1")
     is_verified := false
     is_uploader := false })

/-- C9, witness: the invariant applied to the entry the rollup actually
produces for Bob's two comments with like counts 3 and 7. -/
theorem c9_witness :
    bobPair.2.count = bobPair.2.comments.length ∧
    bobPair.2.total_likes =
      (bobPair.2.comments.map (fun sc => sc.like_count)).sum :=
  c9_rollup_invariant.2 bobCorpus bobPair (by decide)

end CommentMiner
